import Mathlib

/-!
Shallow embedding of the harbor-master runtime detection, caching and
status-polling core (src-tauri/src/runtime/{version,status,cache,docker,
podman,detector}.rs and src-tauri/src/polling/service.rs), with theorems
settling the specification claims about it.

Machine integers (`u32`, `u64`) are modelled as `Nat` with explicit
`< 2 ^ 32` bounds where Rust would overflow-check; timestamps (`Instant`,
`DateTime<Utc>`) are modelled as `Nat` instants passed explicitly; fallible
Rust functions returning `Result` are modelled with `Except`.
-/

/-! ## Data model (src-tauri/src/types/mod.rs) -/

/-- `RuntimeType` from types/mod.rs: closed enumeration of supported kinds. -/
inductive RuntimeType where
  | Docker
  | Podman
deriving DecidableEq, Repr

/-- `RuntimeStatus` from types/mod.rs. -/
inductive RuntimeStatus where
  | Running
  | Stopped
  | Error
  | Unknown
deriving DecidableEq, Repr

/-- `PodmanMode` from types/mod.rs. -/
inductive PodmanMode where
  | Rootful
  | Rootless
deriving DecidableEq, Repr

/-- `Version` from types/mod.rs; `major/minor/patch` are `u32` in Rust,
modelled as `Nat` (parsing enforces the `< 2 ^ 32` bound). -/
structure Version where
  major : Nat
  minor : Nat
  patch : Nat
  full : String
deriving DecidableEq, Repr

/-- `Runtime` from types/mod.rs. `DateTime<Utc>` timestamps are modelled as
`Nat` instants supplied by the caller. -/
structure Runtime where
  id : String
  runtime_type : RuntimeType
  path : String
  version : Version
  status : RuntimeStatus
  last_checked : Nat
  detected_at : Nat
  mode : Option PodmanMode
  is_wsl : Option Bool
  error : Option String
  version_warning : Option Bool
deriving DecidableEq, Repr

/-- `DetectionError` from types/mod.rs. -/
structure DetectionError where
  runtime : RuntimeType
  path : String
  error : String
deriving DecidableEq, Repr

/-- `DetectionResult` from types/mod.rs. -/
structure DetectionResult where
  runtimes : List Runtime
  detected_at : Nat
  duration : Nat
  errors : List DetectionError
deriving DecidableEq, Repr

/-! ## Version parser (src-tauri/src/runtime/version.rs)

`parse_version` applies the regex `(\d+)\.(\d+)\.(\d+)` (crate `regex`,
leftmost-first match) and parses the three captures as `u32`.  `\d` is
modelled as an ASCII digit (the version strings at issue are ASCII).  For
this particular pattern, greedy matching with backtracking coincides with
maximal munch: a run of digits consumed by `\d+` can only be followed by the
literal `.` if the run is maximal (shortening the run leaves the next
character a digit, which can never match `.`), and the final `\d+` has
nothing after it, so it consumes the maximal run.  Leftmost-first search
tries successive start positions from the left and keeps the first match. -/

/-- Numeric value of a digit string, as read by Rust's `str::parse::<u32>`
(leading zeros permitted). -/
def digitsVal (cs : List Char) : Nat :=
  cs.foldl (fun acc c => acc * 10 + (c.toNat - 48)) 0

/-- Rust `str::parse::<u32>()` on a capture group: the captures produced by
the regex are nonempty digit runs, so the parse fails exactly when the value
overflows `u32`. -/
def parse_u32 (cs : List Char) : Except String Nat :=
  if cs ≠ [] ∧ cs.all Char.isDigit ∧ digitsVal cs < 2 ^ 32 then
    .ok (digitsVal cs)
  else
    .error "number too large to fit in target type"

/-- Match of `(\d+)\.(\d+)\.(\d+)` anchored at the start of `cs` (maximal
munch, see the argument above); returns the three capture groups. -/
def matchTripleAt (cs : List Char) : Option (List Char × List Char × List Char) :=
  if cs.takeWhile Char.isDigit = [] then none else
  match cs.dropWhile Char.isDigit with
  | '.' :: rest2 =>
    if rest2.takeWhile Char.isDigit = [] then none else
    match rest2.dropWhile Char.isDigit with
    | '.' :: rest4 =>
      if rest4.takeWhile Char.isDigit = [] then none else
      some (cs.takeWhile Char.isDigit, rest2.takeWhile Char.isDigit,
        rest4.takeWhile Char.isDigit)
    | _ => none
  | _ => none

/-- Leftmost-first search for `(\d+)\.(\d+)\.(\d+)`: try each start
position from the left, keep the first match (`Regex::captures`). -/
def findTriple : List Char → Option (List Char × List Char × List Char)
  | [] => none
  | c :: cs =>
    match matchTripleAt (c :: cs) with
    | some r => some r
    | none => findTriple cs

/-- `parse_version` from version.rs: first `\d+\.\d+\.\d+` occurrence,
captures parsed as `u32` in order, `full` rebuilt as
`format!("{}.{}.{}", major, minor, patch)`. -/
def parse_version (version_str : String) : Except String Version :=
  match findTriple version_str.toList with
  | some (g1, g2, g3) => do
    let major ← parse_u32 g1
    let minor ← parse_u32 g2
    let patch ← parse_u32 g3
    .ok { major := major, minor := minor, patch := patch,
          full := toString major ++ "." ++ toString minor ++ "." ++ toString patch }
  | none => .error ("Could not parse version from: " ++ version_str)

/-- `validate_docker_version` from version.rs. -/
def validate_docker_version (version : Version) : Bool :=
  version.major > 20 || (version.major == 20 && version.minor >= 10)

/-- `validate_podman_version` from version.rs. -/
def validate_podman_version (version : Version) : Bool :=
  version.major >= 3

example : (parse_version "Docker version 24.0.7, build afdd53b").toOption =
    some { major := 24, minor := 0, patch := 7, full := "24.0.7" } := by decide

example : (parse_version "podman version 4.8.0").toOption =
    some { major := 4, minor := 8, patch := 0, full := "4.8.0" } := by decide

example : (parse_version "1.2").toOption = none := by decide

example : (parse_version "").toOption = none := by decide

example : (parse_version "4294967296.0.0").toOption = none := by decide

example : (parse_version "4294967295.0.0").toOption =
    some { major := 4294967295, minor := 0, patch := 0, full := "4294967295.0.0" } := by decide

/-! ## Status prober (src-tauri/src/runtime/status.rs)

`check_docker_status` / `check_podman_status` spawn `<path> info` under a
3-second `tokio::time::timeout`.  The nested result
`Result<Result<io::Result<Output>>>` has four shapes, modelled by
`ProbeOutcome`: the command completed with an exit status and captured
stderr; `Command::output` returned an io error (spawn failure); the
blocking task failed to join; or the timeout elapsed first. -/

/-- Outcome of one probe of `<path> info` as observed by status.rs. -/
inductive ProbeOutcome where
  | completed (success : Bool) (stderr : String)
  | spawnFailed
  | joinFailed
  | timedOut
deriving DecidableEq, Repr

/-- Substring scan: does `pat` occur (contiguously) in `haystack`? -/
def listContainsSub (haystack pat : List Char) : Bool :=
  match haystack with
  | [] => pat.isEmpty
  | _ :: t => pat.isPrefixOf haystack || listContainsSub t pat

/-- Rust `str::contains(pat)`: substring containment. -/
def strContains (haystack pat : String) : Bool :=
  listContainsSub haystack.toList pat.toList

/-- `check_docker_status` from status.rs, as a function of the probe
outcome: zero exit ⇒ Running; non-zero exit ⇒ Error iff stderr contains
"permission denied", else Stopped; spawn/join failure ⇒ Stopped;
timeout ⇒ Unknown. -/
def check_docker_status : ProbeOutcome → RuntimeStatus
  | .completed true _ => .Running
  | .completed false stderr =>
    if strContains stderr "permission denied" then .Error else .Stopped
  | .spawnFailed => .Stopped
  | .joinFailed => .Stopped
  | .timedOut => .Unknown

/-- `check_podman_status` from status.rs (same classification as the Docker
prober, run against the Podman executable). -/
def check_podman_status : ProbeOutcome → RuntimeStatus
  | .completed true _ => .Running
  | .completed false stderr =>
    if strContains stderr "permission denied" then .Error else .Stopped
  | .spawnFailed => .Stopped
  | .joinFailed => .Stopped
  | .timedOut => .Unknown

/-- `check_status` from status.rs: dispatch on the runtime kind. -/
def check_status (runtime_type : RuntimeType) (o : ProbeOutcome) : RuntimeStatus :=
  match runtime_type with
  | .Docker => check_docker_status o
  | .Podman => check_podman_status o

/-! ## Detection-time running checks (docker.rs / podman.rs)

`check_docker_running` / `check_podman_running` run `<path> info` with NO
timeout and inspect only the exit status.  Their outcome space is
`SpawnOutcome`: either `Command::output` succeeded (with an exit status and
stderr, the latter unread) or it returned an io error. -/

/-- Outcome of `Command::new(path).arg("info").output()` as observed by
`check_docker_running` / `check_podman_running`. -/
inductive SpawnOutcome where
  | completed (success : Bool) (stderr : String)
  | spawnFailed
deriving DecidableEq, Repr

/-- A `SpawnOutcome` seen as a (non-timeout) `ProbeOutcome`: the same
process run, observed by the §4.5 prober. -/
def SpawnOutcome.toProbe : SpawnOutcome → ProbeOutcome
  | .completed success stderr => .completed success stderr
  | .spawnFailed => .spawnFailed

/-- `check_docker_running` from docker.rs: `out.status.success()` on a
completed run, `false` on a spawn error; stderr is never inspected. -/
def check_docker_running : SpawnOutcome → Bool
  | .completed success _ => success
  | .spawnFailed => false

/-- `check_podman_running` from podman.rs (identical logic). -/
def check_podman_running : SpawnOutcome → Bool
  | .completed success _ => success
  | .spawnFailed => false

/-- The status seeded by `detect_docker`:
`if check_docker_running(&path) { Running } else { Stopped }`. -/
def seed_docker_status (o : SpawnOutcome) : RuntimeStatus :=
  if check_docker_running o then .Running else .Stopped

/-- The status seeded by `detect_podman`:
`if check_podman_running(&path) { Running } else { Stopped }`. -/
def seed_podman_status (o : SpawnOutcome) : RuntimeStatus :=
  if check_podman_running o then .Running else .Stopped

/-! ## Detection cache (src-tauri/src/runtime/cache.rs)

`DetectionCache` holds a `HashMap<RuntimeType, CacheEntry>` behind a mutex
plus a fixed `ttl`.  The map is modelled as a function
`RuntimeType → Option CacheEntry`; `Instant::now()` is modelled by passing
the current instant explicitly to `get` and `set`. -/

/-- `CacheEntry` from cache.rs. -/
structure CacheEntry where
  result : DetectionResult
  expires_at : Nat
deriving DecidableEq

/-- `DetectionCache` from cache.rs (entries map plus TTL). -/
structure DetectionCache where
  entries : RuntimeType → Option CacheEntry
  ttl : Nat

/-- `DetectionCache::new(ttl_seconds)`: empty map, given TTL. -/
def DetectionCache.new (ttl : Nat) : DetectionCache :=
  { entries := fun _ => none, ttl := ttl }

/-- `DetectionCache::get`: return the stored result only when
`now < expires_at` (strict comparison); reads never mutate. -/
def DetectionCache.get (c : DetectionCache) (now : Nat) (runtime_type : RuntimeType) :
    Option DetectionResult :=
  match c.entries runtime_type with
  | some entry => if now < entry.expires_at then some entry.result else none
  | none => none

/-- `DetectionCache::set`: unconditional overwrite with
`expires_at = now + ttl`. -/
def DetectionCache.set (c : DetectionCache) (now : Nat) (runtime_type : RuntimeType)
    (result : DetectionResult) : DetectionCache :=
  { c with entries := fun k =>
      if k = runtime_type then some { result := result, expires_at := now + c.ttl }
      else c.entries k }

/-- `DetectionCache::clear_all`. -/
def DetectionCache.clear_all (c : DetectionCache) : DetectionCache :=
  { c with entries := fun _ => none }

/-! ## Podman rootless-mode query (podman.rs)

`detect_rootless_mode` runs `podman info` with the Go-template format flag
selecting `.Host.Security.Rootless`, with no timeout; only a completed
zero-exit run is inspected (trimmed,
lowercased stdout compared with "true"/"false"); every other outcome
defaults to Rootless. -/

/-- Outcome of the rootless-mode query process. -/
inductive ModeQueryOutcome where
  | completed (success : Bool) (stdout : String)
  | spawnFailed
deriving DecidableEq, Repr

/-- Rust `str::trim`: drop whitespace from both ends, modelled on the char
list. -/
def rust_trim (cs : List Char) : List Char :=
  ((cs.dropWhile Char.isWhitespace).reverse.dropWhile Char.isWhitespace).reverse

/-- `detect_rootless_mode` from podman.rs.  `trim().to_lowercase()` is
modelled on the char list (per-char lowercasing; the outputs at issue are
ASCII "true"/"false"). -/
def detect_rootless_mode : ModeQueryOutcome → Option PodmanMode
  | .completed true stdout =>
    let s := (rust_trim stdout.toList).map Char.toLower
    if s = "true".toList then some .Rootless
    else if s = "false".toList then some .Rootful
    else some .Rootless
  | .completed false _ => some .Rootless
  | .spawnFailed => some .Rootless

/-! ## Per-kind detection pipelines (docker.rs / podman.rs)

`detect_docker(timeout_ms)` / `detect_podman(timeout_ms)` interact with the
OS at fixed points: executable search, permission check, `--version` query,
`info` probe, mode query, and reads of `start.elapsed()`.  One run is
modelled by an environment record carrying the outcome of each interaction
and the elapsed time at each stage boundary.  The `elapsed_*` fields are
listed for every boundary the wall clock passes; the translated code reads
exactly the ones the source reads (`start.elapsed() > timeout` checks). -/

instance {α β : Type} [DecidableEq α] [DecidableEq β] : DecidableEq (Except α β) := fun x y =>
  match x, y with
  | .ok a, .ok b =>
    if h : a = b then .isTrue (by rw [h]) else .isFalse (by simp [h])
  | .error a, .error b =>
    if h : a = b then .isTrue (by rw [h]) else .isFalse (by simp [h])
  | .ok _, .error _ => .isFalse (by simp)
  | .error _, .ok _ => .isFalse (by simp)

/-- Environment of one `detect_docker` run. -/
structure DockerDetectEnv where
  /-- `spawn_blocking(find_docker_executable).await.unwrap_or(None)`. -/
  find_result : Option String
  /-- `start.elapsed()` inside the `or_else` closure (WSL fallback guard). -/
  elapsed_after_find : Nat
  /-- `detect_wsl_docker()` result (always `none` off Linux). -/
  wsl_result : Option String
  /-- `start.elapsed()` at the explicit check before permission verification. -/
  elapsed_at_verify : Nat
  /-- `verify_executable(&path)`. -/
  verify_ok : Bool
  /-- elapsed time when the version query starts (never read by the code). -/
  elapsed_at_version : Nat
  /-- `get_docker_version(&path)`: trimmed stdout, or the io/exit error text. -/
  version_result : Except String String
  /-- elapsed time when the status probe starts (never read by the code). -/
  elapsed_at_status : Nat
  /-- outcome of the `docker info` run inside `check_docker_running`. -/
  status_outcome : SpawnOutcome
  /-- `cfg!(target_os = "linux")`. -/
  target_linux : Bool
  /-- `Utc::now()` at record assembly, as an abstract instant. -/
  now : Nat
  /-- `start.elapsed().as_millis()` at the end of the run. -/
  total_duration : Nat
deriving DecidableEq, Repr

/-- The executable resolution at the head of `detect_docker`:
`find` result, `or_else` falling back to WSL detection unless the budget is
already exceeded. -/
def resolve_docker_path (timeout_ms : Nat) (env : DockerDetectEnv) : Option String :=
  match env.find_result with
  | some p => some p
  | none =>
    if env.elapsed_after_find > timeout_ms then none else env.wsl_result

/-- `detect_docker` from docker.rs, stage by stage.  After executable
resolution the source checks `start.elapsed() > timeout` exactly once
(before permission verification); no elapsed-time read guards the version
query or the status probe. -/
def detect_docker (timeout_ms : Nat) (env : DockerDetectEnv) : DetectionResult :=
  let base : DetectionResult :=
    { runtimes := [], detected_at := env.now, duration := env.total_duration, errors := [] }
  match resolve_docker_path timeout_ms env with
  | none => base
  | some path =>
    if env.elapsed_at_verify > timeout_ms then
      { base with errors :=
          [{ runtime := .Docker, path := path, error := "Detection timeout exceeded" }] }
    else if ¬ env.verify_ok then
      { base with errors :=
          [{ runtime := .Docker, path := path, error := "Executable lacks proper permissions" }] }
    else
      match env.version_result with
      | .error e =>
        { base with errors :=
            [{ runtime := .Docker, path := path, error := "Failed to get version: " ++ e }] }
      | .ok version_str =>
        match parse_version version_str with
        | .error e =>
          { base with errors :=
              [{ runtime := .Docker, path := path, error := "Failed to parse version: " ++ e }] }
        | .ok version =>
          let is_wsl := env.target_linux && strContains path ".exe"
          let status := seed_docker_status env.status_outcome
          let version_warning := if ¬ validate_docker_version version then some true else none
          { base with runtimes :=
              [{ id := "docker-" ++ path
                 runtime_type := .Docker
                 path := path
                 version := version
                 status := status
                 last_checked := env.now
                 detected_at := env.now
                 mode := none
                 is_wsl := if is_wsl then some true else none
                 error := none
                 version_warning := version_warning }] }

/-- Environment of one `detect_podman` run. -/
structure PodmanDetectEnv where
  /-- `spawn_blocking(find_podman_executable).await.unwrap_or(None)`. -/
  find_result : Option String
  /-- `start.elapsed()` at the explicit check before permission verification. -/
  elapsed_at_verify : Nat
  /-- `verify_executable(&path)`. -/
  verify_ok : Bool
  /-- elapsed time when the version query starts (never read by the code). -/
  elapsed_at_version : Nat
  /-- `get_podman_version(&path)`: trimmed stdout, or the io/exit error text. -/
  version_result : Except String String
  /-- elapsed time when the mode query starts (never read by the code). -/
  elapsed_at_mode : Nat
  /-- outcome of the rootless-mode query. -/
  mode_outcome : ModeQueryOutcome
  /-- elapsed time when the status probe starts (never read by the code). -/
  elapsed_at_status : Nat
  /-- outcome of the `podman info` run inside `check_podman_running`. -/
  status_outcome : SpawnOutcome
  /-- `Utc::now()` at record assembly, as an abstract instant. -/
  now : Nat
  /-- `start.elapsed().as_millis()` at the end of the run. -/
  total_duration : Nat
deriving DecidableEq, Repr

/-- `detect_podman` from podman.rs, stage by stage.  After the executable
search the source checks `start.elapsed() > timeout` exactly once (before
permission verification); the version query, mode query and status probe
run unguarded. -/
def detect_podman (timeout_ms : Nat) (env : PodmanDetectEnv) : DetectionResult :=
  let base : DetectionResult :=
    { runtimes := [], detected_at := env.now, duration := env.total_duration, errors := [] }
  match env.find_result with
  | none => base
  | some path =>
    if env.elapsed_at_verify > timeout_ms then
      { base with errors :=
          [{ runtime := .Podman, path := path, error := "Detection timeout exceeded" }] }
    else if ¬ env.verify_ok then
      { base with errors :=
          [{ runtime := .Podman, path := path, error := "Executable lacks proper permissions" }] }
    else
      match env.version_result with
      | .error e =>
        { base with errors :=
            [{ runtime := .Podman, path := path, error := "Failed to get version: " ++ e }] }
      | .ok version_str =>
        match parse_version version_str with
        | .error e =>
          { base with errors :=
              [{ runtime := .Podman, path := path, error := "Failed to parse version: " ++ e }] }
        | .ok version =>
          let mode := detect_rootless_mode env.mode_outcome
          let status := seed_podman_status env.status_outcome
          let version_warning := if ¬ validate_podman_version version then some true else none
          { base with runtimes :=
              [{ id := "podman-" ++ path
                 runtime_type := .Podman
                 path := path
                 version := version
                 status := status
                 last_checked := env.now
                 detected_at := env.now
                 mode := mode
                 is_wsl := none
                 error := none
                 version_warning := version_warning }] }

/-! ## Detector with caching (src-tauri/src/runtime/detector.rs)

`RuntimeDetector::detect_docker` / `detect_podman`: serve the cached
`DetectionResult` when fresh, otherwise run the pipeline and write the
fresh result back.  `detect_all` runs both kinds (concurrently in the
source, under `tokio::join!`; the cache keys are distinct, so the model
composes the two cache transactions in sequence) and concatenates
`docker.runtimes ++ podman.runtimes`. -/

/-- `RuntimeDetector` from detector.rs. -/
structure RuntimeDetector where
  cache : DetectionCache
  detection_timeout : Nat

/-- `RuntimeDetector::detect_docker`: cache lookup, pipeline on miss,
write-back.  Returns the result together with the updated detector. -/
def RuntimeDetector.detect_docker_cached (d : RuntimeDetector) (now : Nat)
    (env : DockerDetectEnv) : DetectionResult × RuntimeDetector :=
  match d.cache.get now .Docker with
  | some cached => (cached, d)
  | none =>
    let result := detect_docker d.detection_timeout env
    (result, { d with cache := d.cache.set now .Docker result })

/-- `RuntimeDetector::detect_podman`: cache lookup, pipeline on miss,
write-back. -/
def RuntimeDetector.detect_podman_cached (d : RuntimeDetector) (now : Nat)
    (env : PodmanDetectEnv) : DetectionResult × RuntimeDetector :=
  match d.cache.get now .Podman with
  | some cached => (cached, d)
  | none =>
    let result := detect_podman d.detection_timeout env
    (result, { d with cache := d.cache.set now .Podman result })

/-- `RuntimeDetector::detect_all`: join both per-kind detections and
concatenate the runtime lists. -/
def RuntimeDetector.detect_all (d : RuntimeDetector) (now : Nat)
    (denv : DockerDetectEnv) (penv : PodmanDetectEnv) : List Runtime × RuntimeDetector :=
  let docker := d.detect_docker_cached now denv
  let podman := docker.2.detect_podman_cached now penv
  (docker.1.runtimes ++ podman.1.runtimes, podman.2)

/-! ## Polling service (src-tauri/src/polling/service.rs)

`PollingService` holds a `running` flag, a poll interval, and a
`HashMap<String, u32>` of consecutive-failure counts, modelled as a
function `String → Option Nat`.  The tick loop's per-runtime logic is two
pure pieces: the backoff skip decision (driven by one fresh
`rand::thread_rng().gen::<u32>()` draw) and the failure-counter update
after a probe.  `spawned_loops` counts the `tokio::spawn` invocations of
the tick loop — the observable for "no second loop is spawned". -/

/-- `PollingService` state (service.rs), with the spawn count of tick
loops made observable. -/
structure PollingService where
  is_running : Bool
  interval_secs : Nat
  failure_counts : String → Option Nat
  spawned_loops : Nat

/-- `PollingService::new(interval_secs)`. -/
def PollingService.new (interval_secs : Nat) : PollingService :=
  { is_running := false, interval_secs := interval_secs,
    failure_counts := fun _ => none, spawned_loops := 0 }

/-- `PollingService::start`: fail fast with the `AlreadyRunning` error if
the flag is set, otherwise set the flag and spawn the tick loop (exactly
one `tokio::spawn`). -/
def PollingService.start (s : PollingService) : Except String PollingService :=
  if s.is_running then
    .error "Polling service already running"
  else
    .ok { s with is_running := true, spawned_loops := s.spawned_loops + 1 }

/-- `PollingService::stop`: clear the flag (the loop observes it at its
next tick boundary). -/
def PollingService.stop (s : PollingService) : PollingService :=
  { s with is_running := false }

/-- `2u32.pow(count.min(5))` from the tick loop: the backoff factor. -/
def backoff_intervals (count : Nat) : Nat :=
  2 ^ min count 5

/-- The skip test applied when the failure count is positive:
`rand::thread_rng().gen::<u32>() % backoff_intervals != 0`, with
`rand_val` the drawn 32-bit value. -/
def skip_decision (count : Nat) (rand_val : Nat) : Bool :=
  rand_val % backoff_intervals count != 0

/-- The tick loop's `should_skip` computation for one runtime: skip only
when a failure count is present and positive, and then per
`skip_decision`. -/
def should_skip (failure_counts : String → Option Nat) (runtime_id : String)
    (rand_val : Nat) : Bool :=
  match failure_counts runtime_id with
  | some count => if count > 0 then skip_decision count rand_val else false
  | none => false

/-- The tick loop's failure-counter update after probing one runtime:
`Error`/`Unknown` insert `min (old + 1) 5` (with `or_insert(0)` supplying
`old = 0` when absent); any other status removes the entry. -/
def update_failure_counts (failure_counts : String → Option Nat) (runtime_id : String)
    (new_status : RuntimeStatus) : String → Option Nat :=
  if new_status = .Error ∨ new_status = .Unknown then
    fun k => if k = runtime_id then
      some (min ((failure_counts runtime_id).getD 0 + 1) 5) else failure_counts k
  else
    fun k => if k = runtime_id then none else failure_counts k

/-- The failure-counts maps reachable by the service: the empty map of a
fresh service, closed under arbitrary probe updates. -/
inductive ReachableCounts : (String → Option Nat) → Prop where
  | init : ReachableCounts (fun _ => none)
  | step (m : String → Option Nat) (runtime_id : String) (new_status : RuntimeStatus) :
      ReachableCounts m → ReachableCounts (update_failure_counts m runtime_id new_status)

/-! ## Spec-side characterizations and counting sets -/

/-- The spec's regex language: `cs` contains an occurrence of
`\d+\.\d+\.\d+` — somewhere in the text there are three nonempty digit
runs separated by literal dots. -/
def TripleOccurs (cs : List Char) : Prop :=
  ∃ pre g1 g2 g3 post,
    cs = pre ++ (g1 ++ '.' :: (g2 ++ '.' :: (g3 ++ post))) ∧
    g1 ≠ [] ∧ g2 ≠ [] ∧ g3 ≠ [] ∧
    (∀ c ∈ g1, c.isDigit) ∧ (∀ c ∈ g2, c.isDigit) ∧ (∀ c ∈ g3, c.isDigit)

/-- The 32-bit draws on which a runtime with failure count `count` is
probed (not skipped) this tick. -/
def probe_draws (count : Nat) : Finset Nat :=
  (Finset.range (2 ^ 32)).filter (fun r => skip_decision count r = false)

/-- The 32-bit draws on which a runtime with failure count `count` is
skipped this tick. -/
def skip_draws (count : Nat) : Finset Nat :=
  (Finset.range (2 ^ 32)).filter (fun r => skip_decision count r = true)

/-! ## Theorems -/

/-- C1: the Status Prober's four-way classification: a zero-exit run is
`Running`; a non-zero exit is `Error` exactly when stderr contains a
permission-denied indicator and `Stopped` otherwise; a spawn failure is
`Stopped`; a timeout is `Unknown`; and `Error` arises only from a
permission-denied stderr. -/
theorem c1_probe_classification (k : RuntimeType) (o : ProbeOutcome) :
    (∀ s, o = .completed true s → check_status k o = .Running) ∧
    (∀ s, o = .completed false s →
      check_status k o = if strContains s "permission denied" then .Error else .Stopped) ∧
    (o = .spawnFailed → check_status k o = .Stopped) ∧
    (o = .timedOut → check_status k o = .Unknown) ∧
    (check_status k o = .Error →
      ∃ s, o = .completed false s ∧ strContains s "permission denied" = true) := by
  cases k <;> cases o <;>
    simp only [check_status, check_docker_status, check_podman_status] <;>
    constructor <;>
    try constructor
  all_goals
    try simp
  all_goals
    rename_i success stderr
  all_goals
    cases success <;> simp

/-- Witness for C1 at a concrete permission-denied probe outcome. -/
theorem c1_probe_classification_witness :
    check_status .Docker (.completed false "permission denied on socket") = .Error := by
  have h := (c1_probe_classification .Docker
    (.completed false "permission denied on socket")).2.1
    "permission denied on socket" rfl
  rw [h]
  decide

/-- C2 counterexample: on a completed non-zero-exit `info` run whose stderr
is a permission-denied message, the detection pipelines seed `Stopped`,
while the §4.5 prober classifies the same process outcome as `Error`.  So
the seeded status does not equal the prober's classification. -/
theorem c2_seed_counterexample :
    seed_docker_status (.completed false "permission denied") = .Stopped ∧
    check_docker_status (SpawnOutcome.completed false "permission denied").toProbe = .Error ∧
    seed_podman_status (.completed false "permission denied") = .Stopped ∧
    check_podman_status (SpawnOutcome.completed false "permission denied").toProbe = .Error := by
  decide

/-- C2 amended: the status seeded by `detect_docker`/`detect_podman` is
`Running` exactly when the §4.5 classification of the same process outcome
is `Running`, and `Stopped` in every other case; in particular the seed is
never `Error` or `Unknown` (the seeding check inspects only the exit
status and has no timeout of its own). -/
theorem c2_seed_amended (o : SpawnOutcome) :
    (seed_docker_status o =
      if check_docker_status o.toProbe = .Running then .Running else .Stopped) ∧
    (seed_podman_status o =
      if check_podman_status o.toProbe = .Running then .Running else .Stopped) ∧
    seed_docker_status o ≠ .Error ∧ seed_docker_status o ≠ .Unknown ∧
    seed_podman_status o ≠ .Error ∧ seed_podman_status o ≠ .Unknown := by
  cases o with
  | completed success stderr =>
    cases success <;>
      simp only [seed_docker_status, seed_podman_status, check_docker_running,
        check_podman_running, SpawnOutcome.toProbe, check_docker_status,
        check_podman_status] <;>
      by_cases h : strContains stderr "permission denied" <;>
      simp [h]
  | spawnFailed =>
    simp [seed_docker_status, seed_podman_status, check_docker_running,
      check_podman_running, SpawnOutcome.toProbe, check_docker_status, check_podman_status]

/-- C5: cache round-trip with strict expiry: after `set` at instant `now`,
a `get` at instant `t` returns the stored result exactly when
`t < now + ttl`, and any successful `get` on any cache state reads an
entry strictly before its expiry instant. -/
theorem c5_cache_ttl (c : DetectionCache) (now t : Nat) (k : RuntimeType)
    (r : DetectionResult) :
    ((c.set now k r).get t k = if t < now + c.ttl then some r else none) ∧
    (∀ r', c.get t k = some r' →
      ∃ entry, c.entries k = some entry ∧ t < entry.expires_at ∧ r' = entry.result) := by
  constructor
  · simp [DetectionCache.set, DetectionCache.get]
  · intro r' hget
    unfold DetectionCache.get at hget
    cases hentry : c.entries k with
    | none => rw [hentry] at hget; simp at hget
    | some entry =>
      rw [hentry] at hget
      by_cases ht : t < entry.expires_at
      · simp [ht] at hget
        exact ⟨entry, rfl, ht, hget.symm⟩
      · simp [ht] at hget

/-- Witness for C5: a concrete round-trip through an empty cache with TTL
60, read back at instant 59 (inside the TTL) — the stored result returns. -/
theorem c5_cache_ttl_witness :
    (((DetectionCache.new 60).set 0 .Docker
        { runtimes := [], detected_at := 0, duration := 7, errors := [] }).get 59 .Docker) =
      some { runtimes := [], detected_at := 0, duration := 7, errors := [] } := by
  have h := (c5_cache_ttl (DetectionCache.new 60) 0 59 .Docker
    { runtimes := [], detected_at := 0, duration := 7, errors := [] }).1
  rw [h]
  decide

/-- C6: a probe outcome of `Error` or `Unknown` increments the runtime's
failure counter saturating at 5, any other outcome removes it, and in
every reachable failure-counts map no stored counter exceeds 5. -/
theorem c6_failure_counter_bounded :
    (∀ m id st, (st = .Error ∨ st = .Unknown) →
      update_failure_counts m id st id = some (min ((m id).getD 0 + 1) 5)) ∧
    (∀ m id st, st ≠ .Error → st ≠ .Unknown → update_failure_counts m id st id = none) ∧
    (∀ m, ReachableCounts m → ∀ id c, m id = some c → c ≤ 5) := by
  refine ⟨?_, ?_, ?_⟩
  · intro m id st hst
    simp [update_failure_counts, hst]
  · intro m id st h1 h2
    simp [update_failure_counts, h1, h2]
  · intro m hm
    induction hm with
    | init => intro id c h; simp at h
    | step m rid st _ ih =>
      intro id c h
      unfold update_failure_counts at h
      by_cases hst : st = .Error ∨ st = .Unknown
      · simp only [hst, if_pos] at h
        by_cases hid : id = rid
        · rw [if_pos hid] at h
          have := h.symm
          simp only [Option.some.injEq] at this
          omega
        · rw [if_neg hid] at h
          exact ih id c h
      · simp only [hst, if_neg, not_false_iff] at h
        by_cases hid : id = rid
        · rw [if_pos hid] at h; exact absurd h (by simp)
        · rw [if_neg hid] at h
          exact ih id c h

/-- Witness for C6 at a concrete failing probe: one `Error` probe on a
fresh service stores counter 1, and the reachable-state bound applies. -/
theorem c6_failure_counter_bounded_witness :
    update_failure_counts (fun _ => none) "docker-1" .Error "docker-1" = some 1 ∧ 1 ≤ 5 := by
  constructor
  · exact c6_failure_counter_bounded.1 (fun _ => none) "docker-1" .Error (Or.inl rfl)
  · exact c6_failure_counter_bounded.2.2 _
      (ReachableCounts.step _ "docker-1" .Error ReachableCounts.init) "docker-1" 1
      (c6_failure_counter_bounded.1 (fun _ => none) "docker-1" .Error (Or.inl rfl))

/-- C8: `start` transitions Stopped→Running exactly once: on a running
service it returns the `AlreadyRunning` error and spawns no loop; on a
stopped service it succeeds, sets the flag, and spawns exactly one loop;
and a second `start` after a successful one fails. -/
theorem c8_start_exactly_once (s : PollingService) :
    (s.is_running = true → s.start = .error "Polling service already running") ∧
    (s.is_running = false →
      s.start = .ok { s with is_running := true, spawned_loops := s.spawned_loops + 1 }) ∧
    (∀ s', s.start = .ok s' →
      s'.is_running = true ∧ s'.spawned_loops = s.spawned_loops + 1 ∧ s.is_running = false) ∧
    (∀ s', s.start = .ok s' → s'.start = .error "Polling service already running") := by
  refine ⟨?_, ?_, ?_, ?_⟩
  · intro h; simp [PollingService.start, h]
  · intro h; simp [PollingService.start, h]
  · intro s' h
    unfold PollingService.start at h
    by_cases hr : s.is_running
    · simp [hr] at h
    · simp [hr] at h
      subst h
      exact ⟨rfl, rfl, by simpa using hr⟩
  · intro s' h
    unfold PollingService.start at h
    by_cases hr : s.is_running
    · simp [hr] at h
    · simp [hr] at h
      subst h
      simp [PollingService.start]

/-- Witness for C8: a fresh service starts successfully, and the started
state rejects a second `start`. -/
theorem c8_start_exactly_once_witness :
    (PollingService.new 5).start =
      .ok { is_running := true, interval_secs := 5,
            failure_counts := fun _ => none, spawned_loops := 1 } ∧
    ({ is_running := true, interval_secs := 5,
       failure_counts := fun _ => none, spawned_loops := 1 : PollingService }).start =
      .error "Polling service already running" := by
  constructor
  · exact (c8_start_exactly_once (PollingService.new 5)).2.1 rfl
  · exact (c8_start_exactly_once _).1 rfl

/-- Writing one cache key leaves reads of any other key unchanged. -/
lemma DetectionCache.get_set_of_ne (c : DetectionCache) (now t : Nat)
    (k k' : RuntimeType) (r : DetectionResult) (h : k' ≠ k) :
    (c.set now k r).get t k' = c.get t k' := by
  simp [DetectionCache.set, DetectionCache.get, h]

/-- C9: `detect_all` returns exactly the Docker result's runtimes followed
by the Podman result's runtimes, each kind computed independently: the
combined list equals the concatenation of what each per-kind cached
detection would return on its own from the same detector state, so errors
or an empty result for one kind never remove or alter the other kind's
runtimes. -/
theorem c9_detect_all_concat (d : RuntimeDetector) (now : Nat)
    (denv : DockerDetectEnv) (penv : PodmanDetectEnv) :
    ((d.detect_all now denv penv).1 =
      (d.detect_docker_cached now denv).1.runtimes ++
        (d.detect_podman_cached now penv).1.runtimes) ∧
    (∀ r, r ∈ (d.detect_podman_cached now penv).1.runtimes →
      r ∈ (d.detect_all now denv penv).1) ∧
    (∀ r, r ∈ (d.detect_docker_cached now denv).1.runtimes →
      r ∈ (d.detect_all now denv penv).1) := by
  have hpod : (((d.detect_docker_cached now denv).2).detect_podman_cached now penv).1 =
      (d.detect_podman_cached now penv).1 := by
    unfold RuntimeDetector.detect_docker_cached
    cases hc : d.cache.get now .Docker with
    | some cached => rfl
    | none =>
      simp only []
      unfold RuntimeDetector.detect_podman_cached
      rw [DetectionCache.get_set_of_ne _ _ _ _ _ _ (by simp)]
      cases d.cache.get now .Podman <;> rfl
  have hall : (d.detect_all now denv penv).1 =
      (d.detect_docker_cached now denv).1.runtimes ++
        (d.detect_podman_cached now penv).1.runtimes := by
    simp only [RuntimeDetector.detect_all]
    rw [hpod]
  refine ⟨hall, ?_, ?_⟩
  · intro r hr
    rw [hall]
    exact List.mem_append_right _ hr
  · intro r hr
    rw [hall]
    exact List.mem_append_left _ hr

/-- Witness for C9: Docker detection yields only a permissions error while
Podman detection finds a runtime; the Podman runtime is still present in
the combined `detect_all` list. -/
theorem c9_detect_all_concat_witness :
    let d : RuntimeDetector := { cache := DetectionCache.new 60, detection_timeout := 2000 }
    let denv : DockerDetectEnv :=
      { find_result := some "/usr/bin/docker", elapsed_after_find := 0, wsl_result := none,
        elapsed_at_verify := 1, verify_ok := false, elapsed_at_version := 2,
        version_result := .error "io error", elapsed_at_status := 3,
        status_outcome := .spawnFailed, target_linux := true, now := 0, total_duration := 5 }
    let penv : PodmanDetectEnv :=
      { find_result := some "/usr/bin/podman", elapsed_at_verify := 1, verify_ok := true,
        elapsed_at_version := 2, version_result := .ok "podman version 4.8.0",
        elapsed_at_mode := 3, mode_outcome := .completed true "true",
        elapsed_at_status := 4, status_outcome := .completed true "", now := 0,
        total_duration := 5 }
    let rt : Runtime :=
      { id := "podman-/usr/bin/podman", runtime_type := .Podman, path := "/usr/bin/podman",
        version := { major := 4, minor := 8, patch := 0, full := "4.8.0" },
        status := .Running, last_checked := 0, detected_at := 0,
        mode := some .Rootless, is_wsl := none, error := none, version_warning := none }
    rt ∈ (d.detect_all 0 denv penv).1 := by
  intro d denv penv rt
  apply (c9_detect_all_concat d 0 denv penv).2.1
  have hrt : (d.detect_podman_cached 0 penv).1.runtimes = [rt] := by decide
  rw [hrt]
  exact List.mem_singleton.mpr rfl

/-- "Failed to get version: " followed by anything is never the timeout
message (the first characters already differ). -/
lemma failed_get_ne_timeout (e : String) :
    "Failed to get version: " ++ e ≠ "Detection timeout exceeded" := by
  intro h
  have h2 : "Failed to get version: ".data ++ e.data = "Detection timeout exceeded".data :=
    congrArg String.data h
  have h3 : some 'F' = some 'D' := congrArg List.head? h2
  simp at h3

/-- "Failed to parse version: " followed by anything is never the timeout
message. -/
lemma failed_parse_ne_timeout (e : String) :
    "Failed to parse version: " ++ e ≠ "Detection timeout exceeded" := by
  intro h
  have h2 : "Failed to parse version: ".data ++ e.data = "Detection timeout exceeded".data :=
    congrArg String.data h
  have h3 : some 'F' = some 'D' := congrArg List.head? h2
  simp at h3

/-- C3 counterexample: a Docker detection run with budget 100 ms that
passes the single pre-verification timeout check at 50 ms but whose
elapsed time already exceeds the budget at the version-query boundary
(150 ms).  The claim requires an abort with "Detection timeout exceeded"
and no further stage; the pipeline instead runs the version query and the
status probe to completion and returns a detected runtime with no error. -/
theorem c3_timeout_counterexample :
    let env : DockerDetectEnv :=
      { find_result := some "/usr/bin/docker", elapsed_after_find := 10, wsl_result := none,
        elapsed_at_verify := 50, verify_ok := true, elapsed_at_version := 150,
        version_result := .ok "Docker version 24.0.7, build afdd53b",
        elapsed_at_status := 180, status_outcome := .completed true "",
        target_linux := false, now := 0, total_duration := 200 }
    env.elapsed_at_verify ≤ 100 ∧ env.elapsed_at_version > 100 ∧
    (detect_docker 100 env).errors = [] ∧
    (detect_docker 100 env).runtimes ≠ [] := by
  decide

/-- C3 amended: the per-kind pipelines check the elapsed time against the
budget only at the boundary before permission verification (plus, for
Docker, inside the WSL fallback): a "Detection timeout exceeded" error is
produced exactly when an executable was resolved and the elapsed time at
that single checkpoint exceeds the budget; no check guards the version
query, the status probe, or the mode query. -/
theorem c3_timeout_single_checkpoint (t : Nat) (denv : DockerDetectEnv)
    (penv : PodmanDetectEnv) :
    ((∃ err ∈ (detect_docker t denv).errors, err.error = "Detection timeout exceeded") ↔
      ((resolve_docker_path t denv).isSome ∧ denv.elapsed_at_verify > t)) ∧
    ((∃ err ∈ (detect_podman t penv).errors, err.error = "Detection timeout exceeded") ↔
      (penv.find_result.isSome ∧ penv.elapsed_at_verify > t)) := by
  constructor
  · unfold detect_docker
    cases hp : resolve_docker_path t denv with
    | none => simp
    | some path =>
      by_cases hv : denv.elapsed_at_verify > t
      · simp [hv]
      · simp only [hv, and_false, iff_false, if_false]
        split
        · rintro ⟨err, hmem, hmsg⟩
          simp at hmem
          rw [hmem] at hmsg
          simp at hmsg
        · split
          · rename_i e heq
            rintro ⟨err, hmem, hmsg⟩
            simp at hmem
            rw [hmem] at hmsg
            exact failed_get_ne_timeout e hmsg
          · split
            · rename_i e heq
              rintro ⟨err, hmem, hmsg⟩
              simp at hmem
              rw [hmem] at hmsg
              exact failed_parse_ne_timeout e hmsg
            · rintro ⟨err, hmem, hmsg⟩
              simp at hmem
  · unfold detect_podman
    cases hp : penv.find_result with
    | none => simp
    | some path =>
      by_cases hv : penv.elapsed_at_verify > t
      · simp [hv]
      · simp only [hv, and_false, iff_false, if_false]
        split
        · rintro ⟨err, hmem, hmsg⟩
          simp at hmem
          rw [hmem] at hmsg
          simp at hmsg
        · split
          · rename_i e heq
            rintro ⟨err, hmem, hmsg⟩
            simp at hmem
            rw [hmem] at hmsg
            exact failed_get_ne_timeout e hmsg
          · split
            · rename_i e heq
              rintro ⟨err, hmem, hmsg⟩
              simp at hmem
              rw [hmem] at hmsg
              exact failed_parse_ne_timeout e hmsg
            · rintro ⟨err, hmem, hmsg⟩
              simp at hmem

/-- Witness for C3 (amended): a Podman run 400 ms past a 300 ms budget at
the pre-verification checkpoint does produce the timeout error. -/
theorem c3_timeout_single_checkpoint_witness :
    ∃ err ∈ (detect_podman 300
      { find_result := some "/usr/bin/podman", elapsed_at_verify := 700, verify_ok := true,
        elapsed_at_version := 800, version_result := .ok "podman version 4.8.0",
        elapsed_at_mode := 900, mode_outcome := .completed true "true",
        elapsed_at_status := 950, status_outcome := .completed true "", now := 0,
        total_duration := 1000 }).errors, err.error = "Detection timeout exceeded" := by
  exact (c3_timeout_single_checkpoint 300
    { find_result := some "/usr/bin/docker", elapsed_after_find := 0, wsl_result := none,
      elapsed_at_verify := 0, verify_ok := true, elapsed_at_version := 0,
      version_result := .error "x", elapsed_at_status := 0,
      status_outcome := .spawnFailed, target_linux := false, now := 0, total_duration := 0 }
    _).2.mpr ⟨by decide, by decide⟩

/-- On a digit run followed by a literal dot, maximal munch takes exactly
the run and leaves the dot. -/
lemma takeWhile_digits_dot (g r : List Char) (hg : ∀ c ∈ g, c.isDigit) :
    (g ++ '.' :: r).takeWhile Char.isDigit = g ∧
    (g ++ '.' :: r).dropWhile Char.isDigit = '.' :: r := by
  induction g with
  | nil =>
    have hdot : ('.' : Char).isDigit = false := rfl
    simp [List.takeWhile_cons, List.dropWhile_cons, hdot]
  | cons c g ih =>
    have hc : c.isDigit := hg c (by simp)
    have ih' := ih (fun x hx => hg x (by simp [hx]))
    simp [List.takeWhile_cons, List.dropWhile_cons, hc, ih'.1, ih'.2]

/-- A nonempty digit run at the head keeps `takeWhile isDigit` nonempty. -/
lemma takeWhile_digits_ne_nil (g r : List Char) (hne : g ≠ [])
    (hg : ∀ c ∈ g, c.isDigit) :
    (g ++ r).takeWhile Char.isDigit ≠ [] := by
  cases g with
  | nil => exact absurd rfl hne
  | cons c t =>
    have hc : c.isDigit := hg c (by simp)
    simp [List.takeWhile_cons, hc]

/-- Anchored match succeeds on any decomposition starting with the
pattern. -/
lemma matchTripleAt_decomp (g1 g2 g3 post : List Char)
    (h1 : g1 ≠ []) (h2 : g2 ≠ []) (h3 : g3 ≠ [])
    (d1 : ∀ c ∈ g1, c.isDigit) (d2 : ∀ c ∈ g2, c.isDigit)
    (d3 : ∀ c ∈ g3, c.isDigit) :
    (matchTripleAt (g1 ++ '.' :: (g2 ++ '.' :: (g3 ++ post)))).isSome := by
  obtain ⟨t1, e1⟩ := takeWhile_digits_dot g1 (g2 ++ '.' :: (g3 ++ post)) d1
  obtain ⟨t2, e2⟩ := takeWhile_digits_dot g2 (g3 ++ post) d2
  unfold matchTripleAt
  simp [t1, e1, t2, e2, h1, h2, takeWhile_digits_ne_nil g3 post h3 d3]

/-- Anchored match analysed: a successful match yields a decomposition of
the input, with nonempty all-digit capture groups. -/
lemma matchTripleAt_some (cs g1 g2 g3 : List Char)
    (h : matchTripleAt cs = some (g1, g2, g3)) :
    ∃ post, cs = g1 ++ '.' :: (g2 ++ '.' :: (g3 ++ post)) ∧
      g1 ≠ [] ∧ g2 ≠ [] ∧ g3 ≠ [] ∧
      (∀ c ∈ g1, c.isDigit) ∧ (∀ c ∈ g2, c.isDigit) ∧ (∀ c ∈ g3, c.isDigit) := by
  unfold matchTripleAt at h
  split at h
  · exact absurd h (by simp)
  rename_i hne1
  split at h
  · rename_i rest2 heq2
    split at h
    · exact absurd h (by simp)
    rename_i hne2
    split at h
    · rename_i rest4 heq4
      split at h
      · exact absurd h (by simp)
      rename_i hne3
      have h' := Option.some.inj h
      obtain ⟨hg1, hg2, hg3⟩ : cs.takeWhile Char.isDigit = g1 ∧
          rest2.takeWhile Char.isDigit = g2 ∧ rest4.takeWhile Char.isDigit = g3 := by
        simpa [Prod.ext_iff] using h'
      have hcs : cs = cs.takeWhile Char.isDigit ++ '.' :: rest2 := by
        conv_lhs => rw [← List.takeWhile_append_dropWhile Char.isDigit cs]
        rw [heq2]
      have hr2 : rest2 = rest2.takeWhile Char.isDigit ++ '.' :: rest4 := by
        conv_lhs => rw [← List.takeWhile_append_dropWhile Char.isDigit rest2]
        rw [heq4]
      have hr4 : rest4 = rest4.takeWhile Char.isDigit ++ rest4.dropWhile Char.isDigit :=
        (List.takeWhile_append_dropWhile Char.isDigit rest4).symm
      refine ⟨rest4.dropWhile Char.isDigit, ?_, ?_, ?_, ?_, ?_, ?_, ?_⟩
      · rw [← hg1, ← hg2, ← hg3]
        calc cs = cs.takeWhile Char.isDigit ++ '.' :: rest2 := hcs
          _ = cs.takeWhile Char.isDigit ++
              '.' :: (rest2.takeWhile Char.isDigit ++ '.' :: rest4) := by rw [← hr2]
          _ = cs.takeWhile Char.isDigit ++
              '.' :: (rest2.takeWhile Char.isDigit ++
                '.' :: (rest4.takeWhile Char.isDigit ++ rest4.dropWhile Char.isDigit)) := by
            rw [← hr4]
      · rw [← hg1]; exact hne1
      · rw [← hg2]; exact hne2
      · rw [← hg3]; exact hne3
      · intro c hc; rw [← hg1] at hc; exact List.mem_takeWhile_imp hc
      · intro c hc; rw [← hg2] at hc; exact List.mem_takeWhile_imp hc
      · intro c hc; rw [← hg3] at hc; exact List.mem_takeWhile_imp hc
    · exact absurd h (by simp)
  · exact absurd h (by simp)

/-- A successful search decomposes the input: the match happens at some
start position. -/
lemma findTriple_some_decomp (cs : List Char) (t : List Char × List Char × List Char)
    (h : findTriple cs = some t) :
    ∃ pre rest, cs = pre ++ rest ∧ matchTripleAt rest = some t := by
  induction cs with
  | nil => simp [findTriple] at h
  | cons c cs ih =>
    rw [findTriple] at h
    cases hm : matchTripleAt (c :: cs) with
    | some r =>
      rw [hm] at h
      exact ⟨[], c :: cs, rfl, hm.trans h⟩
    | none =>
      rw [hm] at h
      obtain ⟨pre, rest, hcs, hmm⟩ := ih h
      exact ⟨c :: pre, rest, by rw [List.cons_append, ← hcs], hmm⟩

/-- The search succeeds whenever an anchored match exists at any start
position. -/
lemma findTriple_isSome_of_decomp (pre rest : List Char)
    (h : (matchTripleAt rest).isSome) :
    (findTriple (pre ++ rest)).isSome := by
  induction pre with
  | nil =>
    cases rest with
    | nil => simp [matchTripleAt] at h
    | cons c t =>
      simp only [List.nil_append]
      rw [findTriple]
      cases hm : matchTripleAt (c :: t) with
      | some r => simp
      | none => rw [hm] at h; simp at h
  | cons p pre ih =>
    simp only [List.cons_append]
    rw [findTriple]
    cases hm : matchTripleAt (p :: (pre ++ rest)) with
    | some r => simp
    | none => simpa using ih

/-- The capture groups of a successful search are nonempty digit runs. -/
lemma findTriple_groups (cs g1 g2 g3 : List Char)
    (h : findTriple cs = some (g1, g2, g3)) :
    g1 ≠ [] ∧ g2 ≠ [] ∧ g3 ≠ [] ∧
      (∀ c ∈ g1, c.isDigit) ∧ (∀ c ∈ g2, c.isDigit) ∧ (∀ c ∈ g3, c.isDigit) := by
  obtain ⟨pre, rest, -, hm⟩ := findTriple_some_decomp cs _ h
  obtain ⟨post, -, h1, h2, h3, d1, d2, d3⟩ := matchTripleAt_some rest g1 g2 g3 hm
  exact ⟨h1, h2, h3, d1, d2, d3⟩

/-- `parse_u32` succeeds on an in-range digit run. -/
lemma parse_u32_ok (g : List Char) (hne : g ≠ []) (hd : ∀ c ∈ g, c.isDigit)
    (hb : digitsVal g < 2 ^ 32) : parse_u32 g = .ok (digitsVal g) := by
  unfold parse_u32
  rw [if_pos ⟨hne, List.all_eq_true.mpr hd, hb⟩]

/-- `parse_u32` fails on overflow. -/
lemma parse_u32_error (g : List Char) (hb : 2 ^ 32 ≤ digitsVal g) :
    parse_u32 g = .error "number too large to fit in target type" := by
  unfold parse_u32
  rw [if_neg]
  rintro ⟨-, -, hlt⟩
  omega

/-- `parse_version` succeeds with the found triple when all three
components are in `u32` range. -/
lemma parse_version_ok_of_bounds (s : String) (g1 g2 g3 : List Char)
    (hf : findTriple s.toList = some (g1, g2, g3))
    (b1 : digitsVal g1 < 2 ^ 32) (b2 : digitsVal g2 < 2 ^ 32)
    (b3 : digitsVal g3 < 2 ^ 32) :
    parse_version s = .ok
      { major := digitsVal g1, minor := digitsVal g2, patch := digitsVal g3,
        full := toString (digitsVal g1) ++ "." ++ toString (digitsVal g2) ++ "." ++
          toString (digitsVal g3) } := by
  obtain ⟨h1, h2, h3, d1, d2, d3⟩ := findTriple_groups _ _ _ _ hf
  unfold parse_version
  rw [hf]
  simp [parse_u32_ok g1 h1 d1 b1, parse_u32_ok g2 h2 d2 b2, parse_u32_ok g3 h3 d3 b3,
    Bind.bind, Except.bind]

/-- `parse_version` fails when no pattern occurs. -/
lemma parse_version_error_of_none (s : String) (hf : findTriple s.toList = none) :
    parse_version s = .error ("Could not parse version from: " ++ s) := by
  unfold parse_version
  rw [hf]

/-- `parse_version` fails when some component of the first match
overflows `u32`. -/
lemma parse_version_error_of_overflow (s : String) (g1 g2 g3 : List Char)
    (hf : findTriple s.toList = some (g1, g2, g3))
    (hov : 2 ^ 32 ≤ digitsVal g1 ∨ 2 ^ 32 ≤ digitsVal g2 ∨ 2 ^ 32 ≤ digitsVal g3) :
    ∃ e, parse_version s = .error e := by
  obtain ⟨h1, h2, h3, d1, d2, d3⟩ := findTriple_groups _ _ _ _ hf
  by_cases b1 : digitsVal g1 < 2 ^ 32
  · by_cases b2 : digitsVal g2 < 2 ^ 32
    · have hb3 : 2 ^ 32 ≤ digitsVal g3 := by rcases hov with h | h | h <;> omega
      refine ⟨"number too large to fit in target type", ?_⟩
      unfold parse_version
      rw [hf]
      simp [parse_u32_ok g1 h1 d1 b1, parse_u32_ok g2 h2 d2 b2, parse_u32_error g3 hb3,
        Bind.bind, Except.bind]
    · refine ⟨"number too large to fit in target type", ?_⟩
      unfold parse_version
      rw [hf]
      simp [parse_u32_ok g1 h1 d1 b1, parse_u32_error g2 (by omega), Bind.bind, Except.bind]
  · refine ⟨"number too large to fit in target type", ?_⟩
    unfold parse_version
    rw [hf]
    simp [parse_u32_error g1 (by omega), Bind.bind, Except.bind]

/-- C4 counterexample: "4294967296.0.0" contains a `\d+\.\d+\.\d+`
occurrence, yet `parse_version` fails (the major component exceeds
`u32::MAX`), refuting the claim that every string containing the pattern
parses successfully. -/
theorem c4_parse_version_counterexample :
    TripleOccurs "4294967296.0.0".toList ∧
    ∃ e, parse_version "4294967296.0.0" = .error e := by
  constructor
  · exact ⟨[], "4294967296".toList, ['0'], ['0'], [], by decide, by decide, by decide,
      by decide, by decide, by decide, by decide⟩
  · exact ⟨"number too large to fit in target type", by decide⟩

/-- C4 amended: a `\d+\.\d+\.\d+` occurrence exists in the text iff the
leftmost-first search finds one; whenever the first match's three
components each fit in `u32`, `parse_version` succeeds with exactly that
triple, with `full` the reconstructed dotted string; and when no such
pattern occurs `parse_version` fails with a parse error. -/
theorem c4_parse_version_first_triple (s : String) :
    ((∃ t, findTriple s.toList = some t) ↔ TripleOccurs s.toList) ∧
    (∀ g1 g2 g3, findTriple s.toList = some (g1, g2, g3) →
      digitsVal g1 < 2 ^ 32 → digitsVal g2 < 2 ^ 32 → digitsVal g3 < 2 ^ 32 →
      parse_version s = .ok
        { major := digitsVal g1, minor := digitsVal g2, patch := digitsVal g3,
          full := toString (digitsVal g1) ++ "." ++ toString (digitsVal g2) ++ "." ++
            toString (digitsVal g3) }) ∧
    (findTriple s.toList = none →
      parse_version s = .error ("Could not parse version from: " ++ s)) := by
  refine ⟨⟨?_, ?_⟩, ?_, ?_⟩
  · rintro ⟨⟨g1, g2, g3⟩, ht⟩
    obtain ⟨pre, rest, hcs, hm⟩ := findTriple_some_decomp _ _ ht
    obtain ⟨post, hrest, h1, h2, h3, d1, d2, d3⟩ := matchTripleAt_some rest g1 g2 g3 hm
    exact ⟨pre, g1, g2, g3, post, by rw [hcs, hrest], h1, h2, h3, d1, d2, d3⟩
  · rintro ⟨pre, g1, g2, g3, post, hcs, h1, h2, h3, d1, d2, d3⟩
    have hm := matchTripleAt_decomp g1 g2 g3 post h1 h2 h3 d1 d2 d3
    have hs := findTriple_isSome_of_decomp pre _ hm
    rw [← hcs] at hs
    exact Option.isSome_iff_exists.mp hs
  · intro g1 g2 g3 hf b1 b2 b3
    exact parse_version_ok_of_bounds s g1 g2 g3 hf b1 b2 b3
  · exact parse_version_error_of_none s

/-- Witness for C4 (amended) on the spec's own example string. -/
theorem c4_parse_version_first_triple_witness :
    parse_version "Docker version 24.0.7, build afdd53b" =
      .ok { major := 24, minor := 0, patch := 7, full := "24.0.7" } := by
  have h := (c4_parse_version_first_triple "Docker version 24.0.7, build afdd53b").2.1
    "24".toList "0".toList "7".toList (by decide) (by decide) (by decide) (by decide)
  exact h.trans (by decide)

/-- C10: `parse_version` fails exactly when the input contains no
`\d+\.\d+\.\d+` occurrence or some numeric component of the first
occurrence exceeds `u32::MAX`; in particular it fails on
"4294967296.0.0", whose major component is `2 ^ 32`. -/
theorem c10_parse_version_error_iff :
    (∀ s : String, (∃ e, parse_version s = .error e) ↔
      (findTriple s.toList = none ∨
        ∃ g1 g2 g3, findTriple s.toList = some (g1, g2, g3) ∧
          (2 ^ 32 ≤ digitsVal g1 ∨ 2 ^ 32 ≤ digitsVal g2 ∨ 2 ^ 32 ≤ digitsVal g3))) ∧
    (∃ e, parse_version "4294967296.0.0" = .error e) := by
  constructor
  · intro s
    constructor
    · rintro ⟨e, he⟩
      cases hf : findTriple s.toList with
      | none => exact Or.inl rfl
      | some t =>
        obtain ⟨g1, g2, g3⟩ := t
        refine Or.inr ⟨g1, g2, g3, rfl, ?_⟩
        by_contra hov
        push_neg at hov
        have hok := parse_version_ok_of_bounds s g1 g2 g3 hf hov.1 hov.2.1 hov.2.2
        rw [hok] at he
        exact absurd he (by simp)
    · rintro (hf | ⟨g1, g2, g3, hf, hov⟩)
      · exact ⟨_, parse_version_error_of_none s hf⟩
      · exact parse_version_error_of_overflow s g1 g2 g3 hf hov
  · exact ⟨"number too large to fit in target type", by decide⟩

/-- Counting multiples: among `0, …, n*m - 1` exactly `m` values are
divisible by `n`. -/
lemma card_filter_mod (n m : Nat) (hn : 0 < n) :
    ((Finset.range (n * m)).filter (fun r => r % n = 0)).card = m := by
  have himg : (Finset.range (n * m)).filter (fun r => r % n = 0) =
      (Finset.range m).image (fun i => n * i) := by
    ext x
    simp only [Finset.mem_filter, Finset.mem_range, Finset.mem_image]
    constructor
    · rintro ⟨hlt, hmod⟩
      refine ⟨x / n, ?_, Nat.mul_div_cancel' (Nat.dvd_of_mod_eq_zero hmod)⟩
      exact (Nat.div_lt_iff_lt_mul hn).mpr (by rw [Nat.mul_comm m n]; exact hlt)
    · rintro ⟨i, hi, rfl⟩
      exact ⟨mul_lt_mul_of_pos_left hi hn, Nat.mul_mod_right n i⟩
  rw [himg, Finset.card_image_of_injective _
    (fun a b h => Nat.eq_of_mul_eq_mul_left hn h), Finset.card_range]

/-- The probed draws are exactly the multiples of the backoff factor. -/
lemma probe_draws_card (c : Nat) : (probe_draws c).card = 2 ^ (32 - min c 5) := by
  have hsplit : (2 : Nat) ^ 32 = 2 ^ min c 5 * 2 ^ (32 - min c 5) := by
    rw [← pow_add]
    congr 1
    omega
  unfold probe_draws
  have hfe : (Finset.range (2 ^ 32)).filter (fun r => skip_decision c r = false) =
      (Finset.range (2 ^ 32)).filter (fun r => r % 2 ^ min c 5 = 0) :=
    Finset.filter_congr (fun x _ => by simp [skip_decision, backoff_intervals, bne])
  rw [hfe, hsplit, card_filter_mod _ _ (pow_pos (by norm_num) _)]

/-- Every draw is either skipped or probed. -/
lemma probe_add_skip_draws (c : Nat) :
    (skip_draws c).card + (probe_draws c).card = 2 ^ 32 := by
  unfold skip_draws probe_draws
  have h := Finset.filter_card_add_filter_neg_card_eq_card
    (s := Finset.range (2 ^ 32)) (p := fun r => skip_decision c r = true)
  rw [Finset.card_range] at h
  have hfe : (Finset.range (2 ^ 32)).filter (fun r => skip_decision c r = false) =
      (Finset.range (2 ^ 32)).filter (fun r => ¬ (skip_decision c r = true)) :=
    Finset.filter_congr (fun x _ => by simp)
  rw [hfe]
  exact h

lemma skip_draws_card (c : Nat) :
    (skip_draws c).card = 2 ^ 32 - 2 ^ (32 - min c 5) := by
  have h := probe_add_skip_draws c
  rw [probe_draws_card] at h
  omega

/-- C7: the tick loop's backoff-skip policy: a runtime with an absent or
zero failure counter is never skipped; with counter `c > 0` the draw `r`
skips exactly when `r` is non-zero modulo `backoffFactor = 2^min(c,5)`;
over the uniform 32-bit draw space the runtime is probed on exactly a
`1/backoffFactor` fraction of draws and skipped on the remaining
`(backoffFactor-1)/backoffFactor` fraction; and the probed fraction is
non-increasing in the failure count. -/
theorem c7_backoff_skip :
    (∀ m : String → Option Nat, ∀ id r, (m id = none ∨ m id = some 0) →
      should_skip m id r = false) ∧
    (∀ m : String → Option Nat, ∀ id r c, m id = some c → 0 < c →
      should_skip m id r = (r % 2 ^ min c 5 != 0)) ∧
    (∀ c, 0 < c → (probe_draws c).card * backoff_intervals c = 2 ^ 32) ∧
    (∀ c, 0 < c →
      (skip_draws c).card * backoff_intervals c = (backoff_intervals c - 1) * 2 ^ 32) ∧
    (∀ c c', c ≤ c' → (probe_draws c').card ≤ (probe_draws c).card) := by
  refine ⟨?_, ?_, ?_, ?_, ?_⟩
  · intro m id r h
    rcases h with h | h <;> simp [should_skip, h]
  · intro m id r c h hc
    simp [should_skip, h, hc, skip_decision, backoff_intervals]
  · intro c _
    rw [probe_draws_card]
    show 2 ^ (32 - min c 5) * 2 ^ min c 5 = 2 ^ 32
    rw [← pow_add]
    congr 1
    omega
  · intro c _
    rw [skip_draws_card]
    show (2 ^ 32 - 2 ^ (32 - min c 5)) * 2 ^ min c 5 = (2 ^ min c 5 - 1) * 2 ^ 32
    have hks : 2 ^ (32 - min c 5) * 2 ^ min c 5 = 2 ^ 32 := by
      rw [← pow_add]
      congr 1
      omega
    calc (2 ^ 32 - 2 ^ (32 - min c 5)) * 2 ^ min c 5
        = 2 ^ 32 * 2 ^ min c 5 - 2 ^ (32 - min c 5) * 2 ^ min c 5 :=
          Nat.sub_mul _ _ _
      _ = 2 ^ 32 * 2 ^ min c 5 - 2 ^ 32 := by rw [hks]
      _ = 2 ^ min c 5 * 2 ^ 32 - 1 * 2 ^ 32 := by rw [mul_comm ((2:Nat) ^ 32), one_mul]
      _ = (2 ^ min c 5 - 1) * 2 ^ 32 := (Nat.sub_mul _ _ _).symm
  · intro c c' hcc
    rw [probe_draws_card, probe_draws_card]
    exact Nat.pow_le_pow_right (by norm_num) (by omega)

/-- Witness for C7: a fresh map never skips, and at failure count 3 the
probed fraction is exactly `1/8` of the 32-bit draw space. -/
theorem c7_backoff_skip_witness :
    should_skip (fun _ => none) "docker-1" 12345 = false ∧
    (0 < 3 ∧ (probe_draws 3).card * backoff_intervals 3 = 2 ^ 32) := by
  constructor
  · exact c7_backoff_skip.1 (fun _ => none) "docker-1" 12345 (Or.inl rfl)
  · exact ⟨by decide, c7_backoff_skip.2.2.1 3 (by decide)⟩

/-- Witness for C2 (amended) at a concrete zero-exit probe outcome. -/
theorem c2_seed_amended_witness :
    seed_docker_status (.completed true "") = .Running := by
  have h := (c2_seed_amended (.completed true "")).1
  exact h.trans (by decide)

/-- Witness for C10 at a concrete patternless input. -/
theorem c10_parse_version_error_iff_witness :
    ∃ e, parse_version "1.2" = .error e :=
  (c10_parse_version_error_iff.1 "1.2").mpr (Or.inl (by decide))
